import Mathlib

/-!
Shallow embedding of the gym-tracker program (src/src/main.rs), a workout
logging CLI over an embedded document store with two map/reduce secondary
indexes, together with theorems about its specification.

The store is modelled as the list of inserted records in insertion order;
the library's view query (with_key + query_with_docs) is modelled from its
contract: the mappings emitted by the view whose key equals the queried key,
each paired with its source document, in insertion order.
-/

/-- Bit-pattern representation of Rust `f32` body weights: the program only
stores and retrieves them verbatim and performs no arithmetic on them, so a
weight is an opaque 32-bit pattern. -/
abbrev F32 := Nat

/-- Rust `u8` intensity values: stored and retrieved verbatim, no arithmetic
is ever performed, so a plain natural number is a faithful carrier. -/
abbrev U8 := Nat

/-- One workout record: struct `WorkoutInputs` (src/src/main.rs lines 143-150). -/
structure WorkoutInputs where
  username : String
  date : String
  time : String
  body_weight : F32
  muscle_group : String
  intensity : U8
  deriving DecidableEq, Repr

/-- The collection name from the attribute
`#[collection(name = "workout-data", views = [UserView, DateView])]`. -/
def WorkoutInputs.collectionName : String := "workout-data"

/-- The emitted tuple value type of both views:
`(String, String, f32, String, u8)`. -/
abbrev ViewValue := String × String × F32 × String × U8

/-- One emitted (key, value) mapping of a view (bonsaidb's `ViewMappedValue`):
both views key on a `String` and emit a `ViewValue`. -/
structure ViewMappedValue where
  key : String
  value : ViewValue
  deriving DecidableEq, Repr

namespace UserView

/-- The view name from `#[view(..., name = "by-user-name")]` (line 59). -/
def viewName : String := "by-user-name"

/-- `UserView::map` (lines 62-76): `emit_key_and_value` with key the record's
username and value the tuple (date, time, body_weight, muscle_group,
intensity). -/
def mapEmit (doc : WorkoutInputs) : ViewMappedValue :=
  { key := doc.username
    value := (doc.date, doc.time, doc.body_weight, doc.muscle_group, doc.intensity) }

/-- The full emission of `UserView::map` on one document:
`emit_key_and_value` emits exactly one mapping. -/
def mapEmits (doc : WorkoutInputs) : List ViewMappedValue := [mapEmit doc]

/-- Loop body of `UserView::reduce` (lines 85-90): the running state is the
pair (username, workout_info); a mapping whose key equals the running username
overwrites both. -/
def reduceStep (st : String × ViewValue) (m : ViewMappedValue) : String × ViewValue :=
  if m.key = st.1 then (m.key, m.value) else st

/-- `UserView::reduce` (lines 78-93): reads `mappings[0]` unconditionally
(an out-of-bounds panic on an empty slice, modelled as `none`), then scans
all mappings with `reduceStep` and returns the final workout_info. -/
def reduce (mappings : List ViewMappedValue) : Option ViewValue :=
  match mappings with
  | [] => none
  | m0 :: rest => some (((m0 :: rest).foldl reduceStep (m0.key, m0.value)).2)

/-- `view::<UserView>().with_key(k).query_with_docs()` as used by
`print_all_data`: each mapping of the view with key `k` paired with its
source document, in insertion order. -/
def queryWithDocs (store : List WorkoutInputs) (k : String) :
    List (ViewMappedValue × WorkoutInputs) :=
  (store.filter (fun doc => decide ((mapEmit doc).key = k))).map
    (fun doc => (mapEmit doc, doc))

end UserView

namespace DateView

/-- The view name from `#[view(..., name = "by-date")]` (line 96). -/
def viewName : String := "by-date"

/-- `DateView::map` (lines 99-113): `emit_key_and_value` with key the record's
date and value the tuple (username, time, body_weight, muscle_group,
intensity). -/
def mapEmit (doc : WorkoutInputs) : ViewMappedValue :=
  { key := doc.date
    value := (doc.username, doc.time, doc.body_weight, doc.muscle_group, doc.intensity) }

/-- The full emission of `DateView::map` on one document:
`emit_key_and_value` emits exactly one mapping. -/
def mapEmits (doc : WorkoutInputs) : List ViewMappedValue := [mapEmit doc]

/-- Loop body of `DateView::reduce` (lines 122-127): the running state is the
pair (date, workout_info); a mapping whose key equals the running date
overwrites both. -/
def reduceStep (st : String × ViewValue) (m : ViewMappedValue) : String × ViewValue :=
  if m.key = st.1 then (m.key, m.value) else st

/-- `DateView::reduce` (lines 115-129): reads `mappings[0]` unconditionally
(an out-of-bounds panic on an empty slice, modelled as `none`), then scans
all mappings with `reduceStep` and returns the final workout_info. -/
def reduce (mappings : List ViewMappedValue) : Option ViewValue :=
  match mappings with
  | [] => none
  | m0 :: rest => some (((m0 :: rest).foldl reduceStep (m0.key, m0.value)).2)

/-- `view::<DateView>().with_key(k).query_with_docs()` as used by
`print_specific_day`: each mapping of the view with key `k` paired with its
source document, in insertion order. -/
def queryWithDocs (store : List WorkoutInputs) (k : String) :
    List (ViewMappedValue × WorkoutInputs) :=
  (store.filter (fun doc => decide ((mapEmit doc).key = k))).map
    (fun doc => (mapEmit doc, doc))

end DateView

/-- `WorkoutInputs::insert` (lines 152-173): builds the record from the six
fields and `push_into`s it, appending one document to the collection. -/
def WorkoutInputs.insert (store : List WorkoutInputs) (username date time : String)
    (body_weight : F32) (muscle_group : String) (intensity : U8) : List WorkoutInputs :=
  store ++ [({ username, date, time, body_weight, muscle_group, intensity } : WorkoutInputs)]

/-- `print_all_data` (lines 213-241): query the by-user view with the
username and render each returned mapping's document contents; modelled as
the sequence of records it renders. -/
def print_all_data (store : List WorkoutInputs) (username : String) :
    List WorkoutInputs :=
  (UserView.queryWithDocs store username).map (fun mapping => mapping.2)

/-- `print_specific_day` (lines 244-274): query the by-date view with the
date, keep a mapping only when `username == mapping.value.0` (position 0 of
the stored value tuple), and render those documents; modelled as the sequence
of records it renders. -/
def print_specific_day (store : List WorkoutInputs) (username date : String) :
    List WorkoutInputs :=
  ((DateView.queryWithDocs store date).filter
      (fun mapping => decide (username = mapping.1.value.1))).map
    (fun mapping => mapping.2)

/-- The CLI command surface: `enum MethodType` (lines 35-56) with its three
variants ReadLogs, ReadDate and Write. -/
inductive MethodType where
  | readLogs (username : String)
  | readDate (username : String) (date : String)
  | write (username date time : String) (body_weight : F32) (muscle_group : String)
      (intensity : U8)
  deriving DecidableEq, Repr

/-- Effect of `run` (lines 278-299) on the stored collection: ReadLogs and
ReadDate only read (print_all_data / print_specific_day), Write appends one
record through `insert_data` / `WorkoutInputs::insert`. -/
def runStore : MethodType → List WorkoutInputs → List WorkoutInputs
  | MethodType.readLogs _, store => store
  | MethodType.readDate _ _, store => store
  | MethodType.write u d t bw mg i, store => WorkoutInputs.insert store u d t bw mg i

/-- Error taxonomy of the single-result lookup: a missing key is a NotFound
condition, distinct from a storage-layer failure. -/
inductive GymError where
  | notFound
  | storage (msg : String)
  deriving DecidableEq, Repr

/-- Modelled from the spec: the single-result "latest for this user" query.
No caller of the views' `reduce` exists in src/src/main.rs (only the reduce
declarations do); per the spec the query reduces the mappings for the key and
surfaces "no entry for requested key" as a NotFound condition because the
caller expects exactly one result. -/
def latestForUser (store : List WorkoutInputs) (username : String) :
    Except GymError ViewValue :=
  match UserView.reduce ((UserView.queryWithDocs store username).map (fun m => m.1)) with
  | none => Except.error GymError.notFound
  | some v => Except.ok v

/-! ## Helper lemmas -/

/-- When every mapping's key equals `k` and the running key is `k`, the
reduce scan keeps the value of the last mapping (the initial value when the
list is empty). -/
theorem foldl_userReduceStep_all_eq (k : String) :
    ∀ (ms : List ViewMappedValue) (st : String × ViewValue), st.1 = k →
      (∀ m ∈ ms, m.key = k) →
      (ms.foldl UserView.reduceStep st).2 =
        (ms.map ViewMappedValue.value).getLastD st.2 := by
  intro ms
  induction ms with
  | nil => intro st h1 _; rfl
  | cons m rest ih =>
    intro st h1 h2
    have hm : m.key = k := h2 m (List.mem_cons_self m rest)
    have hstep : UserView.reduceStep st m = (m.key, m.value) := by
      simp [UserView.reduceStep, hm, h1]
    calc ((m :: rest).foldl UserView.reduceStep st).2
        = (rest.foldl UserView.reduceStep (m.key, m.value)).2 := by
          rw [List.foldl_cons, hstep]
      _ = (rest.map ViewMappedValue.value).getLastD m.value :=
          ih (m.key, m.value) hm (fun x hx => h2 x (List.mem_cons_of_mem m hx))
      _ = ((m :: rest).map ViewMappedValue.value).getLastD st.2 := by
          rw [List.map_cons, List.getLastD_cons]

/-- The two reduce loop bodies are the same function. -/
theorem dateReduceStep_eq_userReduceStep :
    DateView.reduceStep = UserView.reduceStep := rfl

/-- The two reduce functions are the same function. -/
theorem dateReduce_eq_userReduce :
    DateView.reduce = UserView.reduce := rfl

/-- The last value of a mapped nonempty list is the image of the last
element. -/
theorem getLastD_map_value :
    ∀ (ms : List ViewMappedValue) (d : ViewValue) (h : ms ≠ []),
      (ms.map ViewMappedValue.value).getLastD d = (ms.getLast h).value := by
  intro ms
  induction ms with
  | nil => intro d h; exact absurd rfl h
  | cons m rest ih =>
    intro d h
    cases rest with
    | nil => rfl
    | cons m2 rest2 =>
      calc ((m :: m2 :: rest2).map ViewMappedValue.value).getLastD d
          = ((m2 :: rest2).map ViewMappedValue.value).getLastD m.value := by
            rw [List.map_cons, List.getLastD_cons]
        _ = ((m2 :: rest2).getLast (List.cons_ne_nil m2 rest2)).value :=
            ih m.value (List.cons_ne_nil m2 rest2)
        _ = ((m :: m2 :: rest2).getLast h).value := by
            rw [List.getLast_cons (List.cons_ne_nil m2 rest2)]

/-- The records rendered by `print_all_data` are exactly the stored records
filtered on the username. -/
theorem print_all_data_eq_filter (store : List WorkoutInputs) (u : String) :
    print_all_data store u = store.filter (fun r => decide (r.username = u)) := by
  induction store with
  | nil => rfl
  | cons r rest ih =>
    by_cases hu : r.username = u
    · simp [print_all_data, UserView.queryWithDocs, UserView.mapEmit, hu,
        List.filter_cons] at ih ⊢
      exact ih
    · simp [print_all_data, UserView.queryWithDocs, UserView.mapEmit, hu,
        List.filter_cons] at ih ⊢
      exact ih

/-- The records rendered by `print_specific_day` are exactly the stored
records filtered on date and username. -/
theorem print_specific_day_eq_filter (store : List WorkoutInputs) (u d : String) :
    print_specific_day store u d =
      store.filter (fun r => decide (r.date = d ∧ r.username = u)) := by
  induction store with
  | nil => rfl
  | cons r rest ih =>
    by_cases hd : r.date = d
    · by_cases hu : r.username = u
      · simp [print_specific_day, DateView.queryWithDocs, DateView.mapEmit, hd, hu,
          List.filter_cons] at ih ⊢
        exact ih
      · simp [print_specific_day, DateView.queryWithDocs, DateView.mapEmit, hd, hu,
          List.filter_cons, Ne.symm hu] at ih ⊢
        exact ih
    · simp [print_specific_day, DateView.queryWithDocs, DateView.mapEmit, hd,
        List.filter_cons] at ih ⊢
      exact ih

/-! ## Claim theorems -/

/-- C1: for every non-empty mapping list whose entries all share one key,
the reduce function of each view (UserView and DateView) returns the value of
the last mapping in iteration order: the rule is a linear scan keeping the
last entry visited, not a max-by-timestamp. -/
theorem reduce_last_wins (ms : List ViewMappedValue) (k : String) (h : ms ≠ [])
    (hk : ∀ m ∈ ms, m.key = k) :
    UserView.reduce ms = some ((ms.getLast h).value) ∧
    DateView.reduce ms = some ((ms.getLast h).value) := by
  have huser : UserView.reduce ms = some ((ms.getLast h).value) := by
    cases ms with
    | nil => exact absurd rfl h
    | cons m0 rest =>
      have h0 : m0.key = k := hk m0 (List.mem_cons_self m0 rest)
      have hfold := foldl_userReduceStep_all_eq k (m0 :: rest) (m0.key, m0.value) h0 hk
      have hlast := getLastD_map_value (m0 :: rest) m0.value (List.cons_ne_nil m0 rest)
      show some (((m0 :: rest).foldl UserView.reduceStep (m0.key, m0.value)).2) = _
      rw [hfold, hlast]
  exact ⟨huser, by rw [dateReduce_eq_userReduce]; exact huser⟩

/-- Witness for C1 at a concrete two-entry mapping list sharing the key
"Alice": reduce returns the second (last) value. -/
theorem reduce_last_wins_witness :
    UserView.reduce
        [{ key := "Alice", value := ("1-1-2024", "1:00-2:00", 150, "Back", 5) },
         { key := "Alice", value := ("1-2-2024", "2:00-3:00", 151, "Chest", 6) }] =
      some ("1-2-2024", "2:00-3:00", 151, "Chest", 6) :=
  (reduce_last_wins
      [{ key := "Alice", value := ("1-1-2024", "1:00-2:00", 150, "Back", 5) },
       { key := "Alice", value := ("1-2-2024", "2:00-3:00", 151, "Chest", 6) }]
      "Alice" (List.cons_ne_nil _ _) (by decide)).1

/-- C2: print_specific_day (lookup_by_date) returns exactly the records whose
date equals the queried key and whose username equals the filter; the
username comparison is applied after the date-index lookup, against position
0 of the index's stored value tuple, so a record by a different user on the
same date is never returned. -/
theorem lookup_by_date_exact (store : List WorkoutInputs) (u d : String) :
    print_specific_day store u d =
      store.filter (fun r => decide (r.date = d ∧ r.username = u)) :=
  print_specific_day_eq_filter store u d

/-- C3: inserting a record built from any valid field tuple and then looking
up by its username yields a sequence containing a record equal to it in all
six fields. -/
theorem insert_lookup_roundtrip (store : List WorkoutInputs)
    (u d t : String) (bw : F32) (mg : String) (i : U8) :
    ∃ r, r ∈ print_all_data (WorkoutInputs.insert store u d t bw mg i) u ∧
      r.username = u ∧ r.date = d ∧ r.time = t ∧ r.body_weight = bw ∧
      r.muscle_group = mg ∧ r.intensity = i := by
  refine ⟨{ username := u, date := d, time := t, body_weight := bw,
            muscle_group := mg, intensity := i }, ?_, rfl, rfl, rfl, rfl, rfl, rfl⟩
  rw [print_all_data_eq_filter, WorkoutInputs.insert, List.filter_append]
  refine List.mem_append_right _ ?_
  simp

/-- C4: print_all_data (lookup_by_user) returns exactly the records whose
username equals the queried key, and a key matching no stored record yields
the empty sequence rather than an error. -/
theorem lookup_by_user_exact :
    (∀ (store : List WorkoutInputs) (u : String) (r : WorkoutInputs),
        r ∈ print_all_data store u ↔ r ∈ store ∧ r.username = u) ∧
    (∀ (store : List WorkoutInputs) (u : String),
        (∀ r ∈ store, r.username ≠ u) → print_all_data store u = []) := by
  constructor
  · intro store u r
    rw [print_all_data_eq_filter]
    simp [List.mem_filter]
  · intro store u h
    rw [print_all_data_eq_filter]
    refine List.filter_eq_nil_iff.mpr ?_
    intro r hr
    simp [h r hr]

/-- Witness for C4: a one-record store queried with the key
"nonexistent" yields the empty sequence. -/
theorem lookup_by_user_exact_witness :
    print_all_data
        [{ username := "Alice", date := "1-1-2024", time := "1:00-2:00",
           body_weight := 150, muscle_group := "Back", intensity := 5 }]
        "nonexistent" = [] :=
  lookup_by_user_exact.2
    [{ username := "Alice", date := "1-1-2024", time := "1:00-2:00",
       body_weight := 150, muscle_group := "Back", intensity := 5 }]
    "nonexistent" (by decide)

/-- C5: every insert contributes exactly one mapping to each secondary index:
the by-user view emits one mapping keyed on username with value (date, time,
body_weight, muscle_group, intensity), and the by-date view emits one mapping
keyed on date with value (username, time, body_weight, muscle_group,
intensity); never zero, never more than one. -/
theorem insert_emits_one_entry_per_index (r : WorkoutInputs) :
    (UserView.mapEmits r).length = 1 ∧
    UserView.mapEmits r =
      [{ key := r.username,
         value := (r.date, r.time, r.body_weight, r.muscle_group, r.intensity) }] ∧
    (DateView.mapEmits r).length = 1 ∧
    DateView.mapEmits r =
      [{ key := r.date,
         value := (r.username, r.time, r.body_weight, r.muscle_group, r.intensity) }] :=
  ⟨rfl, rfl, rfl, rfl⟩

/-- C6: the single-result latest query surfaces a key with no entries as the
distinct NotFound condition, never a storage failure, whereas the
multi-result lookup returns an empty sequence for a missing key. -/
theorem latest_notFound_vs_empty (store : List WorkoutInputs) (u : String)
    (h : ∀ r ∈ store, r.username ≠ u) :
    latestForUser store u = Except.error GymError.notFound ∧
    (∀ msg, GymError.notFound ≠ GymError.storage msg) ∧
    print_all_data store u = [] := by
  have hquery : UserView.queryWithDocs store u = [] := by
    rw [UserView.queryWithDocs]
    have hfilter : store.filter (fun doc => decide ((UserView.mapEmit doc).key = u)) = [] := by
      refine List.filter_eq_nil_iff.mpr ?_
      intro r hr
      simp [UserView.mapEmit, h r hr]
    rw [hfilter]
    rfl
  refine ⟨?_, fun msg hmsg => GymError.noConfusion hmsg, ?_⟩
  · unfold latestForUser
    rw [hquery]
    rfl
  · unfold print_all_data
    rw [hquery]
    rfl

/-- Witness for C6: a store holding one Alice record, queried for Bob, gives
the NotFound error. -/
theorem latest_notFound_vs_empty_witness :
    latestForUser
        [{ username := "Alice", date := "1-1-2024", time := "1:00-2:00",
           body_weight := 150, muscle_group := "Back", intensity := 5 }]
        "Bob" = Except.error GymError.notFound :=
  (latest_notFound_vs_empty
      [{ username := "Alice", date := "1-1-2024", time := "1:00-2:00",
         body_weight := 150, muscle_group := "Back", intensity := 5 }]
      "Bob" (by decide)).1

/-- C7 counterexample: the claim names the by-user index "by-user", but the
code declares it with name "by-user-name". -/
theorem user_view_name_counterexample : UserView.viewName ≠ "by-user" := by
  decide

/-- C7 (amended): all records are held in the single logical collection
"workout-data"; the two secondary indexes over it are named "by-user-name"
and "by-date". -/
theorem collection_and_view_names :
    WorkoutInputs.collectionName = "workout-data" ∧
    UserView.viewName = "by-user-name" ∧
    DateView.viewName = "by-date" :=
  ⟨rfl, rfl, rfl⟩

/-- C8: stored records are immutable and never deleted: every command either
leaves the store unchanged or appends exactly one record, and the command
surface offers only the three variants ReadLogs, ReadDate and Write. -/
theorem records_immutable_no_update_delete (m : MethodType)
    (store : List WorkoutInputs) :
    (∃ tail, runStore m store = store ++ tail ∧ (tail = [] ∨ ∃ r, tail = [r])) ∧
    ((∃ u, m = MethodType.readLogs u) ∨
     (∃ u d, m = MethodType.readDate u d) ∨
     (∃ u d t bw mg i, m = MethodType.write u d t bw mg i)) := by
  cases m with
  | readLogs u =>
    exact ⟨⟨[], by simp [runStore], Or.inl rfl⟩, Or.inl ⟨u, rfl⟩⟩
  | readDate u d =>
    exact ⟨⟨[], by simp [runStore], Or.inl rfl⟩, Or.inr (Or.inl ⟨u, d, rfl⟩)⟩
  | write u d t bw mg i =>
    exact ⟨⟨[WorkoutInputs.mk u d t bw mg i], rfl, Or.inr ⟨_, rfl⟩⟩,
      Or.inr (Or.inr ⟨u, d, t, bw, mg, i, rfl⟩)⟩

/-- C9: reads are deterministic and side-effect-free on the store: a ReadLogs
command leaves the store unchanged, so two successive lookups by the same
username with no intervening insert return the same sequence both times. -/
theorem lookup_by_user_idempotent (store : List WorkoutInputs) (u : String) :
    runStore (MethodType.readLogs u) store = store ∧
    print_all_data (runStore (MethodType.readLogs u) store) u =
      print_all_data store u :=
  ⟨rfl, rfl⟩

/-- C10: both reduce functions read mappings[0] unconditionally: on an empty
mapping slice the out-of-bounds access (a panic, modelled as none) is
reached, and on every non-empty slice they return a value. -/
theorem reduce_requires_nonempty :
    UserView.reduce [] = none ∧ DateView.reduce [] = none ∧
    ∀ ms : List ViewMappedValue, ms ≠ [] →
      (UserView.reduce ms).isSome = true ∧ (DateView.reduce ms).isSome = true := by
  refine ⟨rfl, rfl, ?_⟩
  intro ms h
  cases ms with
  | nil => exact absurd rfl h
  | cons m rest => exact ⟨rfl, rfl⟩

/-- Witness for C10 at a concrete one-element mapping list. -/
theorem reduce_requires_nonempty_witness :
    (UserView.reduce
        [{ key := "Alice", value := ("1-1-2024", "1:00-2:00", 150, "Back", 5) }]).isSome = true :=
  (reduce_requires_nonempty.2.2
      [{ key := "Alice", value := ("1-1-2024", "1:00-2:00", 150, "Back", 5) }]
      (List.cons_ne_nil _ _)).1
